import Mathlib

/-!
Shallow embedding of the hostel complaint-management service (src/app.py).

The document store is modelled as a list of Mongo-style documents in natural
(insertion) order.  Fields of a document may be absent; the `resolved` field
additionally distinguishes "present with null value" from "absent", since
MongoDB stores an explicit null when the code inserts `"resolved": None`.
Python exceptions raised inside an endpoint's `try` block are modelled by the
`PyExc` type; every endpoint wraps its body in `try/except Exception`, which
also catches `HTTPException`, re-raising it as a 500 — this conversion is
modelled by `handleExcept`.  Python timestamps are epoch-millisecond integers
(`Int`); the float arithmetic of the statistics endpoint is idealised as exact
rational arithmetic (`ℚ`) with Python's banker's rounding.
-/

/-- A Mongo document of the complaints collection.  `none` on a field means the
field is absent from the document.  For `resolved`, the outer `Option` is
presence of the field and the inner `Option` is null vs. an integer value,
matching the fact that `create_complaint` inserts an explicit `"resolved": None`. -/
structure MongoDoc where
  id : Option Int
  hostel : Option String
  room : Option String
  type_ : Option String
  description : Option String
  status : Option String
  submitted : Option Int
  resolved : Option (Option Int)
deriving DecidableEq

/-- Request body of POST /api/complaints (pydantic model ComplaintCreate). -/
structure ComplaintCreate where
  hostel : String
  room : String
  type_ : String
  description : String
deriving DecidableEq

/-- The dictionary produced by `complaint_helper`: all required fields present,
`resolved` optional (null or timestamp). -/
structure ComplaintOut where
  id : Int
  hostel : String
  room : String
  type_ : String
  description : String
  status : String
  submitted : Int
  resolved : Option Int
deriving DecidableEq

/-- Response of GET /api/complaints/stats/dashboard (pydantic StatsResponse). -/
structure StatsResponse where
  total : Int
  open_ : Int
  resolved : Int
  avgResolution : ℚ
deriving DecidableEq

/-- A Python exception raised inside an endpoint body. -/
inductive PyExc where
  | keyError (key : String)
  | httpExc (status : Nat) (detail : String)
  | typeError (msg : String)
deriving DecidableEq

/-- The message `str(e)` of an exception (Starlette's HTTPException formats as
"status: detail"; `str(KeyError(k))` is the repr-quoted key). -/
def PyExc.message : PyExc → String
  | .keyError k => "\x27" ++ k ++ "\x27"
  | .httpExc s d => toString s ++ ": " ++ d
  | .typeError m => m

/-- The HTTP error response produced by an endpoint (`raise HTTPException`). -/
structure HTTPError where
  status : Nat
  detail : String
deriving DecidableEq

/-- Semantics of each endpoint's `try: ... except Exception as e: raise
HTTPException(status_code=500, detail=str(e))` wrapper.  Since FastAPI's
`HTTPException` is a subclass of `Exception`, an `HTTPException(404)` raised
inside the `try` block is also caught and converted to a 500. -/
def handleExcept {α : Type} : Except PyExc α → Except HTTPError α
  | .ok a => .ok a
  | .error e => .error ⟨500, e.message⟩

/-- Reading a required dictionary key: `complaint["k"]` raises `KeyError` when
the field is absent. -/
def getKey {α : Type} (x : Option α) (k : String) : Except PyExc α :=
  match x with
  | some v => .ok v
  | none => .error (.keyError k)

/-- Embedding of `complaint_helper` (src/app.py:80-91): converts a document to
the response dictionary, reading each required key (raising `KeyError` if
absent, in the dictionary-literal evaluation order) and using
`complaint.get("resolved")`, which yields null both when the field is absent
and when it is null. -/
def complaint_helper (d : MongoDoc) : Except PyExc ComplaintOut := do
  let i ← getKey d.id "id"
  let h ← getKey d.hostel "hostel"
  let r ← getKey d.room "room"
  let t ← getKey d.type_ "type"
  let de ← getKey d.description "description"
  let st ← getKey d.status "status"
  let su ← getKey d.submitted "submitted"
  pure ⟨i, h, r, t, de, st, su, d.resolved.join⟩

/-- The list of `id` values of documents that have an `id` field. -/
def docIds (store : List MongoDoc) : List Int :=
  store.filterMap (fun d => d.id)

/-- Maximum of a list of integers, `none` on the empty list. -/
def maxId : List Int → Option Int
  | [] => none
  | x :: xs =>
    some (match maxId xs with
          | none => x
          | some m => max x m)

/-- Embedding of `collection.find_one(sort=[("id", -1)])`: the first document
in descending `id` order.  Documents with an `id` precede documents without one
(missing fields sort lowest in MongoDB), so the result is a document carrying
the maximum `id` when any document has one, an arbitrary (first) document when
none does, and `none` exactly when the collection is empty. -/
def findOneSortByIdDesc (store : List MongoDoc) : Option MongoDoc :=
  match maxId (docIds store) with
  | some m => store.find? (fun d => decide (d.id = some m))
  | none => store.head?

/-- Embedding of `get_next_complaint_id` (src/app.py:73-78): read the document
with the largest `id` and add 1, or 1 when the collection is empty;
`last_complaint["id"]` raises `KeyError` when that document has no `id`. -/
def get_next_complaint_id (store : List MongoDoc) : Except PyExc Int :=
  match findOneSortByIdDesc store with
  | none => .ok 1
  | some d =>
    match d.id with
    | some m => .ok (m + 1)
    | none => .error (.keyError "id")

/-- Embedding of `collection.find_one({"id": cid})`: first document whose `id`
field equals `cid` (a document without an `id` field does not match). -/
def findOneById (store : List MongoDoc) (cid : Int) : Option MongoDoc :=
  store.find? (fun d => decide (d.id = some cid))

/-- Monadic map over a list in the `Except` monad: the loop of
`get_all_complaints`, stopping at the first exception. -/
def mapExcept {α β : Type} (f : α → Except PyExc β) : List α → Except PyExc (List β)
  | [] => .ok []
  | a :: as => do
    let b ← f a
    let bs ← mapExcept f as
    pure (b :: bs)

/-- Embedding of GET /api/complaints (`get_all_complaints`, src/app.py:99-108). -/
def get_all_complaints (store : List MongoDoc) : Except HTTPError (List ComplaintOut) :=
  handleExcept (mapExcept complaint_helper store)

/-- Embedding of GET /api/complaints/{id} (`get_complaint`, src/app.py:110-119).
The 404 raised when no document matches is itself caught by the endpoint's
`except Exception` clause and surfaces as a 500. -/
def get_complaint (store : List MongoDoc) (cid : Int) : Except HTTPError ComplaintOut :=
  handleExcept
    (match findOneById store cid with
     | some d => complaint_helper d
     | none => .error (.httpExc 404 "Complaint not found"))

/-- Embedding of POST /api/complaints (`create_complaint`, src/app.py:121-144).
`now` is the clock reading `int(datetime.now().timestamp() * 1000)`.  Returns
the collection after the call together with the HTTP result.  `insert_one`
always yields a truthy `inserted_id`, so insertion itself never fails in the
model. -/
def create_complaint (store : List MongoDoc) (c : ComplaintCreate) (now : Int) :
    List MongoDoc × Except HTTPError ComplaintOut :=
  match get_next_complaint_id store with
  | .error e => (store, handleExcept (.error e))
  | .ok cid =>
    let doc : MongoDoc :=
      ⟨some cid, some c.hostel, some c.room, some c.type_, some c.description,
       some "Pending", some now, some none⟩
    (store ++ [doc], handleExcept (complaint_helper doc))

/-- Embedding of `collection.update_one({"id": cid}, {"$set": ...})`: applies
the update to the first matching document and reports `modified_count`, which
is 0 when no document matches, and also 0 when the matched document is left
byte-identical by the update. -/
def updateOneById (cid : Int) (upd : MongoDoc → MongoDoc) :
    List MongoDoc → List MongoDoc × Nat
  | [] => ([], 0)
  | d :: ds =>
    if d.id = some cid then
      (upd d :: ds, if upd d = d then 0 else 1)
    else
      let r := updateOneById cid upd ds
      (d :: r.1, r.2)

/-- The `$set` document built by `update_complaint_status`: always rewrites
`status`, and always rewrites `resolved` — to the current time when the new
status is "Resolved", to an explicit null otherwise. -/
def applyStatusUpdate (newStatus : String) (now : Int) (d : MongoDoc) : MongoDoc :=
  { d with status := some newStatus,
           resolved := some (if newStatus = "Resolved" then some now else none) }

/-- Embedding of PUT /api/complaints/{id} (`update_complaint_status`,
src/app.py:146-169).  Success is tested with `result.modified_count`; on
`modified_count == 0` the code raises a 404 "Complaint not found", which the
`except Exception` clause converts to a 500.  Returns the collection after the
call together with the HTTP result. -/
def update_complaint_status (store : List MongoDoc) (cid : Int) (newStatus : String)
    (now : Int) : List MongoDoc × Except HTTPError ComplaintOut :=
  let r := updateOneById cid (applyStatusUpdate newStatus now) store
  (r.1,
   if r.2 ≠ 0 then
     match findOneById r.1 cid with
     | some d => handleExcept (complaint_helper d)
     | none => handleExcept (.error (.typeError "NoneType object is not subscriptable"))
   else
     handleExcept (.error (.httpExc 404 "Complaint not found")))

/-- Embedding of `collection.delete_one({"id": cid})`: removes the first
matching document and reports `deleted_count`. -/
def deleteOneById (cid : Int) : List MongoDoc → List MongoDoc × Nat
  | [] => ([], 0)
  | d :: ds =>
    if d.id = some cid then
      (ds, 1)
    else
      let r := deleteOneById cid ds
      (d :: r.1, r.2)

/-- Embedding of DELETE /api/complaints/{id} (`delete_complaint`,
src/app.py:171-180).  The 404 raised on `deleted_count == 0` is converted to a
500 by the `except Exception` clause. -/
def delete_complaint (store : List MongoDoc) (cid : Int) :
    List MongoDoc × Except HTTPError String :=
  let r := deleteOneById cid store
  (r.1,
   if r.2 ≠ 0 then
     .ok "Complaint deleted successfully"
   else
     handleExcept (.error (.httpExc 404 "Complaint not found")))

/-- Python truthiness of `complaint.get(k)` for an integer-or-absent field:
truthy iff present and nonzero (both `None` and `0` are falsy). -/
def truthyInt : Option Int → Bool
  | none => false
  | some v => decide (v ≠ 0)

/-- The list comprehension `[c for c in all_complaints if c["status"] == "Resolved"]`
of `get_dashboard_stats`: `c["status"]` raises `KeyError` when a document has
no `status` field. -/
def filterResolvedExc : List MongoDoc → Except PyExc (List MongoDoc)
  | [] => .ok []
  | d :: ds =>
    match d.status with
    | none => .error (.keyError "status")
    | some st => do
      let rest ← filterResolvedExc ds
      pure (if st = "Resolved" then d :: rest else rest)

/-- Accumulation loop of `get_dashboard_stats`: each document whose
`resolved` and `submitted` are both truthy contributes
`complaint["resolved"] - complaint["submitted"]` to `total_time`. -/
def sumDeltas : List MongoDoc → Int
  | [] => 0
  | d :: ds =>
    (if truthyInt d.resolved.join ∧ truthyInt d.submitted then
       d.resolved.join.getD 0 - d.submitted.getD 0
     else 0) + sumDeltas ds

/-- Floor of a rational: since `x.den` is positive, Euclidean division of the
canonical numerator by the denominator is floor division. -/
def ratFloor (x : ℚ) : Int :=
  Int.ediv x.num (x.den : Int)

/-- Rounding to the nearest integer with ties to even, the semantics of
Python 3's built-in `round`. -/
def roundHalfEven (x : ℚ) : Int :=
  if x - (ratFloor x : ℚ) < 1 / 2 then ratFloor x
  else if 1 / 2 < x - (ratFloor x : ℚ) then ratFloor x + 1
  else if ratFloor x % 2 = 0 then ratFloor x else ratFloor x + 1

/-- Python's `round(x, 1)`: round at one decimal place, ties to even. -/
def pyRound1 (x : ℚ) : ℚ :=
  (roundHalfEven (x * 10) : ℚ) / 10

/-- Embedding of GET /api/complaints/stats/dashboard (`get_dashboard_stats`,
src/app.py:182-215).  `total` counts all documents; `resolved_complaints` are
those with `status == "Resolved"`; `avg_resolution` stays `0.0` unless the
accumulated `total_time` is positive, and divides by the number of resolved
complaints (not by the number of documents that contributed a delta). -/
def get_dashboard_stats (store : List MongoDoc) : Except HTTPError StatsResponse :=
  handleExcept (do
    let all_complaints := store
    let resolved_complaints ← filterResolvedExc all_complaints
    let total : Int := all_complaints.length
    let resolved_count : Int := resolved_complaints.length
    let open_count : Int := total - resolved_count
    let avg_resolution : ℚ :=
      if resolved_complaints.isEmpty then 0
      else
        let total_time := sumDeltas resolved_complaints
        if total_time > 0 then
          (((total_time : ℚ) / (resolved_complaints.length : ℚ)) / 3600000)
        else 0
    pure ⟨total, open_count, resolved_count, pyRound1 avg_resolution⟩)

/-- One serialized sequence of create calls: runs `create_complaint` on each
(input, clock-reading) pair in order, collecting the assigned ids; `none` if
any call fails. -/
def runCreates : List (ComplaintCreate × Int) → List MongoDoc →
    Option (List Int × List MongoDoc)
  | [], store => some ([], store)
  | (c, t) :: rest, store =>
    match create_complaint store c t with
    | (store2, .ok out) =>
      match runCreates rest store2 with
      | some (ids, s) => some (out.id :: ids, s)
      | none => none
    | (_, .error _) => none

/-- All seven required fields of a document are present (the fields read with
`complaint["k"]` rather than `complaint.get(k)` in `complaint_helper`). -/
def requiredPresent (d : MongoDoc) : Prop :=
  d.id.isSome ∧ d.hostel.isSome ∧ d.room.isSome ∧ d.type_.isSome ∧
  d.description.isSome ∧ d.status.isSome ∧ d.submitted.isSome

instance (d : MongoDoc) : Decidable (requiredPresent d) := by
  unfold requiredPresent
  infer_instance

/-- The six fields of a document that a status update must not touch, equal. -/
def frameEq (d d2 : MongoDoc) : Prop :=
  d2.id = d.id ∧ d2.hostel = d.hostel ∧ d2.room = d.room ∧ d2.type_ = d.type_ ∧
  d2.description = d.description ∧ d2.submitted = d.submitted

/-- The C5 claim's formula for avgResolution, following the claim's words: sum
of (resolved - submitted) over complaints whose status is "Resolved" and whose
resolved and submitted are both present and truthy, divided by the count of all
complaints with status "Resolved", converted to hours by dividing by 3600000,
rounded to one decimal place; 0.0 when there are no resolved complaints or the
accumulated time is zero. -/
def claimAvgResolution (store : List MongoDoc) : ℚ :=
  let resolvedCount := (store.filter (fun d => decide (d.status = some "Resolved"))).length
  let contributors := store.filter
    (fun d => decide (d.status = some "Resolved") &&
              truthyInt d.resolved.join && truthyInt d.submitted)
  let numer : Int := (contributors.map (fun d => d.resolved.join.getD 0 - d.submitted.getD 0)).sum
  if resolvedCount = 0 ∨ numer = 0 then 0
  else pyRound1 (((numer : ℚ) / (resolvedCount : ℚ)) / 3600000)

/-- The C5 formula amended as the code forces: avgResolution is 0.0 whenever
the accumulated time is zero *or negative*, not only when it is zero. -/
def claimAvgResolutionAmended (store : List MongoDoc) : ℚ :=
  let resolvedCount := (store.filter (fun d => decide (d.status = some "Resolved"))).length
  let contributors := store.filter
    (fun d => decide (d.status = some "Resolved") &&
              truthyInt d.resolved.join && truthyInt d.submitted)
  let numer : Int := (contributors.map (fun d => d.resolved.join.getD 0 - d.submitted.getD 0)).sum
  if resolvedCount = 0 ∨ numer ≤ 0 then 0
  else pyRound1 (((numer : ℚ) / (resolvedCount : ℚ)) / 3600000)

/-- The expected block of assigned ids: `[b+1, b+2, ..., b+n]`. -/
def rangeFrom (b : Int) (n : Nat) : List Int :=
  (List.range n).map (fun (i : Nat) => b + (i : Int) + 1)

/-- A sample well-formed document with id 5, used by concrete witnesses. -/
def sampleDoc5 : MongoDoc :=
  ⟨some 5, some "JAH", some "101", some "Plumbing", some "Leaking tap",
   some "Pending", some 10, some none⟩

/-- A sample well-formed pending document with id 1, as `create` would insert it. -/
def samplePending1 : MongoDoc :=
  ⟨some 1, some "JAH", some "101", some "Plumbing", some "Leaking tap",
   some "Pending", some 1000, some none⟩

/-- A sample resolved document whose `resolved` timestamp precedes `submitted`
by ten hours in milliseconds. -/
def sampleBackwards : MongoDoc :=
  ⟨some 1, some "JAH", some "101", some "Plumbing", some "Leaking tap",
   some "Resolved", some 36000001, some (some 1)⟩

/-- A sample request body. -/
def sampleCreate : ComplaintCreate :=
  ⟨"JAH", "101", "Plumbing", "Leaking tap"⟩

/-- A sample document whose `resolved` field is absent entirely. -/
def sampleAbsentResolved : MongoDoc :=
  ⟨some 2, some "JAH", some "102", some "Electrical", some "No light",
   some "Pending", some 50, none⟩

/-- A sample document missing the required `room` field. -/
def sampleMissingRoom : MongoDoc :=
  ⟨some 3, some "JAH", none, some "Electrical", some "No light",
   some "Pending", some 50, some none⟩

/-- A sample resolved document whose resolution took exactly one hour
(3600000 ms). -/
def sampleResolvedGood : MongoDoc :=
  ⟨some 4, some "JAH", some "104", some "Cleaning", some "Dusty room",
   some "Resolved", some 1000, some (some 3601000)⟩

theorem maxId_mem {l : List Int} : ∀ {m : Int}, maxId l = some m → m ∈ l := by
  induction l with
  | nil => intro m h; simp [maxId] at h
  | cons x xs ih =>
    intro m h
    simp only [maxId] at h
    cases hxs : maxId xs with
    | none =>
      rw [hxs] at h
      simp only [Option.some.injEq] at h
      simp [← h]
    | some v =>
      rw [hxs] at h
      simp only [Option.some.injEq] at h
      rcases max_choice x v with hc | hc
      · simp [← h, hc]
      · right
        rw [← h, hc]
        exact ih hxs

theorem maxId_ub {l : List Int} : ∀ {m : Int}, maxId l = some m →
    ∀ x ∈ l, x ≤ m := by
  induction l with
  | nil => simp
  | cons x xs ih =>
    intro m h y hy
    simp only [maxId] at h
    cases hxs : maxId xs with
    | none =>
      rw [hxs] at h
      simp only [Option.some.injEq] at h
      cases hxs2 : xs with
      | nil =>
        rw [hxs2] at hy
        simp at hy
        omega
      | cons a as => simp [hxs2, maxId] at hxs
    | some v =>
      rw [hxs] at h
      simp only [Option.some.injEq] at h
      rcases List.mem_cons.mp hy with hh | hh
      · subst hh; rw [← h]; exact le_max_left _ _
      · calc y ≤ v := ih hxs y hh
          _ ≤ m := by rw [← h]; exact le_max_right _ _

theorem maxId_isSome {l : List Int} (h : l ≠ []) : (maxId l).isSome := by
  cases l with
  | nil => exact absurd rfl h
  | cons x xs => simp [maxId]

theorem maxId_eq_some {l : List Int} {b : Int} (hmem : b ∈ l)
    (hub : ∀ x ∈ l, x ≤ b) : maxId l = some b := by
  have hne : l ≠ [] := by
    intro h
    rw [h] at hmem
    exact absurd hmem (List.not_mem_nil b)
  rcases Option.isSome_iff_exists.mp (maxId_isSome hne) with ⟨v, hv⟩
  have h1 : v ≤ b := hub v (maxId_mem hv)
  have h2 : b ≤ v := maxId_ub hv b hmem
  rw [hv, le_antisymm h1 h2]

theorem filterMap_of_map_some {α β : Type} (f : α → Option β) :
    ∀ (l : List α) (bs : List β), l.map f = bs.map some → l.filterMap f = bs := by
  intro l
  induction l with
  | nil =>
    intro bs h
    cases bs with
    | nil => rfl
    | cons b bs2 => simp at h
  | cons a as ih =>
    intro bs h
    cases bs with
    | nil => simp at h
    | cons b bs2 =>
      simp only [List.map_cons, List.cons.injEq] at h
      rw [List.filterMap_cons, h.1, ih bs2 h.2]

theorem rangeFrom_zero (b : Int) : rangeFrom b 0 = [] := rfl

theorem rangeFrom_cons (b : Int) (n : Nat) :
    rangeFrom b (n + 1) = (b + 1) :: rangeFrom (b + 1) n := by
  unfold rangeFrom
  rw [List.range_succ_eq_map, List.map_cons, List.map_map]
  refine congrArg₂ _ (by simp) (List.map_congr_left ?_)
  intro i _
  simp only [Function.comp_apply, Nat.succ_eq_add_one]
  push_cast
  ring

theorem rangeFrom_succ_right (b : Int) (n : Nat) :
    rangeFrom b (n + 1) = rangeFrom b n ++ [b + n + 1] := by
  unfold rangeFrom
  rw [List.range_succ, List.map_append, List.map_cons]
  rfl

theorem mem_rangeFrom_ub {b x : Int} {n : Nat} (h : x ∈ rangeFrom b n) :
    x ≤ b + n := by
  unfold rangeFrom at h
  rcases List.mem_map.mp h with ⟨i, hi, rfl⟩
  have := List.mem_range.mp hi
  omega

theorem mem_rangeFrom_last (b : Int) (n : Nat) : b + n + 1 ∈ rangeFrom b (n + 1) := by
  rw [rangeFrom_succ_right]
  simp

theorem get_next_of_maxId {store : List MongoDoc} {m : Int}
    (h : maxId (docIds store) = some m) :
    get_next_complaint_id store = .ok (m + 1) := by
  rcases List.mem_filterMap.mp (maxId_mem h) with ⟨d, hd, hdm⟩
  have hsome : (store.find? (fun d => decide (d.id = some m))).isSome :=
    List.find?_isSome.mpr ⟨d, hd, by simp [hdm]⟩
  rcases Option.isSome_iff_exists.mp hsome with ⟨d0, hd0⟩
  have hid : d0.id = some m := by
    have := List.find?_some hd0
    simpa using this
  simp only [get_next_complaint_id, findOneSortByIdDesc, h, hd0, hid]

theorem get_next_of_ids {store : List MongoDoc} {k : Nat}
    (h : store.map (fun d => d.id) = (rangeFrom 0 k).map some) :
    get_next_complaint_id store = .ok ((k : Int) + 1) := by
  cases k with
  | zero =>
    have hnil : store = [] := by
      have h2 : store.map (fun d => d.id) = [] := by simpa [rangeFrom] using h
      exact List.map_eq_nil_iff.mp h2
    subst hnil
    rfl
  | succ n =>
    have hids : docIds store = rangeFrom 0 (n + 1) :=
      filterMap_of_map_some _ _ _ h
    have hmax : maxId (docIds store) = some ((0 : Int) + n + 1) := by
      rw [hids]
      refine maxId_eq_some (mem_rangeFrom_last 0 n) ?_
      intro x hx
      have := mem_rangeFrom_ub hx
      omega
    rw [get_next_of_maxId hmax]
    congr 1
    push_cast
    ring

theorem create_of_ids {store : List MongoDoc} {k : Nat} (c : ComplaintCreate)
    (now : Int) (h : store.map (fun d => d.id) = (rangeFrom 0 k).map some) :
    ∃ doc : MongoDoc,
      create_complaint store c now =
        (store ++ [doc],
         .ok ⟨(k : Int) + 1, c.hostel, c.room, c.type_, c.description, "Pending",
              now, none⟩) ∧
      (store ++ [doc]).map (fun d => d.id) = (rangeFrom 0 (k + 1)).map some := by
  refine ⟨⟨some ((k : Int) + 1), some c.hostel, some c.room, some c.type_,
           some c.description, some "Pending", some now, some none⟩, ?_, ?_⟩
  · simp only [create_complaint, get_next_of_ids h]
    rfl
  · rw [List.map_append, h, rangeFrom_succ_right, List.map_append]
    simp

theorem runCreates_of_ids (inputs : List (ComplaintCreate × Int)) :
    ∀ (k : Nat) (store : List MongoDoc),
    store.map (fun d => d.id) = (rangeFrom 0 k).map some →
    ∃ s, runCreates inputs store = some (rangeFrom (k : Int) inputs.length, s) ∧
      s.map (fun d => d.id) = (rangeFrom 0 (k + inputs.length)).map some := by
  induction inputs with
  | nil =>
    intro k store h
    exact ⟨store, by simp [runCreates, rangeFrom_zero], by simpa using h⟩
  | cons p rest ih =>
    intro k store h
    rcases create_of_ids p.1 p.2 h with ⟨doc, hc, hids⟩
    rcases ih (k + 1) (store ++ [doc]) hids with ⟨s, hs1, hs2⟩
    refine ⟨s, ?_, ?_⟩
    · show runCreates (p :: rest) store = _
      simp only [List.length_cons, runCreates, hc, hs1, rangeFrom_cons]
      norm_cast
    · have heq : k + 1 + rest.length = k + (rest.length + 1) := by omega
      rw [heq] at hs2
      simpa using hs2

/-- C1: for every state of the store, `create` assigns the new complaint the id
max-existing-id + 1, or 1 when the store is empty; consequently, every
serialized sequence of create calls starting from the empty store assigns the
ids 1, 2, 3, … in call order. -/
theorem c1_create_assigns_sequential_ids :
    (∀ (c : ComplaintCreate) (now : Int),
       (create_complaint [] c now).2.map ComplaintOut.id = .ok 1) ∧
    (∀ (store : List MongoDoc) (c : ComplaintCreate) (now m : Int),
       maxId (docIds store) = some m →
       (create_complaint store c now).2.map ComplaintOut.id = .ok (m + 1)) ∧
    (∀ inputs : List (ComplaintCreate × Int),
       (runCreates inputs []).map Prod.fst =
         some ((List.range inputs.length).map (fun (i : Nat) => (i : Int) + 1))) := by
  refine ⟨fun c now => rfl, ?_, ?_⟩
  · intro store c now m h
    simp only [create_complaint, get_next_of_maxId h]
    rfl
  · intro inputs
    rcases runCreates_of_ids inputs 0 [] rfl with ⟨s, hs, _⟩
    rw [hs]
    simp [rangeFrom]

/-- Witness for C1: on a store whose maximum existing id is 5, `create` assigns
id 6. -/
theorem c1_witness :
    (create_complaint [sampleDoc5] sampleCreate 99).2.map ComplaintOut.id = .ok 6 :=
  c1_create_assigns_sequential_ids.2.1 [sampleDoc5] sampleCreate 99 5 rfl

/-- C2: the claim says `getById` / `updateStatus` / `delete` on a non-existent
id always yield NotFound (404), never a storage error (500).  The code instead
raises its 404 `HTTPException` inside the `try` block, where the endpoint's own
`except Exception` clause catches it (FastAPI's `HTTPException` subclasses
`Exception`) and re-raises it as a 500; so on the empty store all three
operations yield a 500-equivalent, refuting the claim. -/
theorem c2_missing_id_yields_500_not_404 :
    get_complaint [] 1 = .error ⟨500, "404: Complaint not found"⟩ ∧
    (update_complaint_status [] 1 "Resolved" 0).2 =
      .error ⟨500, "404: Complaint not found"⟩ ∧
    (delete_complaint [] 1).2 = .error ⟨500, "404: Complaint not found"⟩ := by
  refine ⟨rfl, rfl, rfl⟩

/-- C4: the claim says `updateStatus` succeeds on every existing complaint for
every status string, including a status identical to the stored one.  The code
tests `result.modified_count`, which MongoDB reports as 0 when the matched
document is left unchanged by the `$set`; re-sending the existing non-Resolved
status of a freshly created complaint (status "Pending", resolved null) is such
a no-op, so the code raises "Complaint not found" (surfacing as a 500 through
the `except Exception` clause) even though the complaint exists. -/
theorem c4_noop_update_on_existing_fails :
    findOneById [samplePending1] 1 = some samplePending1 ∧
    update_complaint_status [samplePending1] 1 "Pending" 2000 =
      ([samplePending1], .error ⟨500, "404: Complaint not found"⟩) := by
  refine ⟨rfl, rfl⟩

/-- C6: for every store, input and clock reading, when `create` succeeds it
returns a record with status "Pending", submitted equal to the clock reading
and resolved null, whatever the input strings; and the document it persists
likewise has status "Pending", submitted = now and an explicit null resolved,
so create never sets a resolution timestamp. -/
theorem c6_create_returns_pending_null_resolved :
    ∀ (store : List MongoDoc) (c : ComplaintCreate) (now : Int)
      (out : ComplaintOut),
    (create_complaint store c now).2 = .ok out →
    out.status = "Pending" ∧ out.submitted = now ∧ out.resolved = none ∧
    out.hostel = c.hostel ∧ out.room = c.room ∧ out.type_ = c.type_ ∧
    out.description = c.description ∧
    (create_complaint store c now).1 =
      store ++ [⟨some out.id, some c.hostel, some c.room, some c.type_,
                 some c.description, some "Pending", some now, some none⟩] := by
  intro store c now out h
  cases hn : get_next_complaint_id store with
  | error e =>
    rw [create_complaint, hn] at h
    simp [handleExcept] at h
  | ok cid =>
    rw [create_complaint, hn] at h
    simp only [handleExcept, complaint_helper, getKey, Option.join,
      Except.bind, bind, pure] at h
    have hout : out = ⟨cid, c.hostel, c.room, c.type_, c.description, "Pending",
        now, none⟩ := by
      cases h
      rfl
    subst hout
    refine ⟨rfl, rfl, rfl, rfl, rfl, rfl, rfl, ?_⟩
    rw [create_complaint, hn]

/-- Witness for C6: a concrete create call on the empty store. -/
theorem c6_witness :
    (⟨1, "JAH", "101", "Plumbing", "Leaking tap", "Pending", 7,
      none⟩ : ComplaintOut).status = "Pending" ∧
    (⟨1, "JAH", "101", "Plumbing", "Leaking tap", "Pending", 7,
      none⟩ : ComplaintOut).submitted = 7 ∧
    (⟨1, "JAH", "101", "Plumbing", "Leaking tap", "Pending", 7,
      none⟩ : ComplaintOut).resolved = none ∧
    (⟨1, "JAH", "101", "Plumbing", "Leaking tap", "Pending", 7,
      none⟩ : ComplaintOut).hostel = sampleCreate.hostel ∧
    (⟨1, "JAH", "101", "Plumbing", "Leaking tap", "Pending", 7,
      none⟩ : ComplaintOut).room = sampleCreate.room ∧
    (⟨1, "JAH", "101", "Plumbing", "Leaking tap", "Pending", 7,
      none⟩ : ComplaintOut).type_ = sampleCreate.type_ ∧
    (⟨1, "JAH", "101", "Plumbing", "Leaking tap", "Pending", 7,
      none⟩ : ComplaintOut).description = sampleCreate.description ∧
    (create_complaint [] sampleCreate 7).1 =
      [] ++ [⟨some (⟨1, "JAH", "101", "Plumbing", "Leaking tap", "Pending", 7,
                     none⟩ : ComplaintOut).id,
              some sampleCreate.hostel, some sampleCreate.room,
              some sampleCreate.type_, some sampleCreate.description,
              some "Pending", some 7, some none⟩] :=
  c6_create_returns_pending_null_resolved [] sampleCreate 7
    ⟨1, "JAH", "101", "Plumbing", "Leaking tap", "Pending", 7, none⟩ rfl

theorem updateOneById_find {cid : Int} {upd : MongoDoc → MongoDoc}
    (hid : ∀ d, (upd d).id = d.id) :
    ∀ store : List MongoDoc, (∃ d ∈ store, d.id = some cid) →
    ∃ d0 ∈ store, findOneById (updateOneById cid upd store).1 cid = some (upd d0) := by
  intro store
  induction store with
  | nil => rintro ⟨d, hd, -⟩; exact absurd hd (List.not_mem_nil d)
  | cons d ds ih =>
    intro hex
    by_cases hd : d.id = some cid
    · refine ⟨d, List.mem_cons_self d ds, ?_⟩
      simp only [updateOneById, if_pos hd, findOneById, List.find?_cons]
      rw [hid d]
      simp [hd]
    · have hex2 : ∃ x ∈ ds, x.id = some cid := by
        rcases hex with ⟨x, hx, hxid⟩
        rcases List.mem_cons.mp hx with rfl | hx2
        · exact absurd hxid hd
        · exact ⟨x, hx2, hxid⟩
      rcases ih hex2 with ⟨d0, hd0, hfind⟩
      refine ⟨d0, List.mem_cons_of_mem d hd0, ?_⟩
      simp only [updateOneById, if_neg hd, findOneById, List.find?_cons]
      simp only [findOneById] at hfind
      simp [hd, hfind]

/-- C3: for every complaint present in the store and every new status string s,
updateStatus rewrites that complaint's status to s and recomputes resolved on
every call: to the current time when s is "Resolved" and to null otherwise,
including when s equals the complaint's existing non-Resolved status. -/
theorem c3_update_sets_status_and_recomputes_resolved :
    ∀ (store : List MongoDoc) (cid : Int) (s : String) (now : Int),
    (∃ d ∈ store, d.id = some cid) →
    ∃ d2, findOneById (update_complaint_status store cid s now).1 cid = some d2 ∧
      d2.status = some s ∧
      d2.resolved = some (if s = "Resolved" then some now else none) := by
  intro store cid s now hex
  rcases @updateOneById_find cid (applyStatusUpdate s now) (fun d => rfl)
    store hex with ⟨d0, -, hfind⟩
  exact ⟨applyStatusUpdate s now d0, hfind, rfl, rfl⟩

/-- Witness for C3: resolving the sample pending complaint stamps its resolved
field with the clock reading. -/
theorem c3_witness :
    ∃ d2, findOneById (update_complaint_status [samplePending1] 1 "Resolved"
        5000).1 1 = some d2 ∧
      d2.status = some "Resolved" ∧
      d2.resolved = some (if "Resolved" = "Resolved" then some 5000 else none) :=
  c3_update_sets_status_and_recomputes_resolved [samplePending1] 1 "Resolved" 5000
    ⟨samplePending1, List.mem_cons_self _ _, rfl⟩

theorem frameEq_refl (d : MongoDoc) : frameEq d d :=
  ⟨rfl, rfl, rfl, rfl, rfl, rfl⟩

theorem updateOneById_frame {cid : Int} {upd : MongoDoc → MongoDoc}
    (hupd : ∀ d, frameEq d (upd d)) :
    ∀ store : List MongoDoc, List.Forall₂ frameEq store (updateOneById cid upd store).1 := by
  intro store
  induction store with
  | nil => exact List.Forall₂.nil
  | cons d ds ih =>
    by_cases hd : d.id = some cid
    · simp only [updateOneById, if_pos hd]
      exact List.Forall₂.cons (hupd d)
        (List.forall₂_same.mpr (fun x _ => frameEq_refl x))
    · simp only [updateOneById, if_neg hd]
      exact List.Forall₂.cons (frameEq_refl d) ih

theorem deleteOneById_sublist (cid : Int) :
    ∀ store : List MongoDoc, ((deleteOneById cid store).1).Sublist store := by
  intro store
  induction store with
  | nil => exact List.Sublist.refl []
  | cons d ds ih =>
    by_cases hd : d.id = some cid
    · simp only [deleteOneById, if_pos hd]
      exact List.sublist_cons_self d ds
    · simp only [deleteOneById, if_neg hd]
      exact List.Sublist.cons₂ d ih

/-- C8: a status update never touches id, hostel, room, type, description or
submitted of any stored document (it may rewrite only status and resolved and
it preserves the number and order of documents); create only appends to the
store, and delete only removes documents, leaving the remaining ones unchanged
— so no operation other than updateStatus mutates an existing record. -/
theorem c8_only_update_mutates_and_preserves_frame :
    ∀ (store : List MongoDoc) (cid : Int) (s : String) (now : Int),
    List.Forall₂ frameEq store (update_complaint_status store cid s now).1 ∧
    (∀ (c : ComplaintCreate) (now2 : Int),
       ∃ tail, (create_complaint store c now2).1 = store ++ tail) ∧
    ((delete_complaint store cid).1).Sublist store := by
  intro store cid s now
  refine ⟨?_, ?_, ?_⟩
  · exact @updateOneById_frame cid (applyStatusUpdate s now)
      (fun d => ⟨rfl, rfl, rfl, rfl, rfl, rfl⟩) store
  · intro c now2
    cases hn : get_next_complaint_id store with
    | error e =>
      refine ⟨[], ?_⟩
      rw [create_complaint, hn]
      simp
    | ok cid2 =>
      refine ⟨[⟨some cid2, some c.hostel, some c.room, some c.type_,
               some c.description, some "Pending", some now2, some none⟩], ?_⟩
      rw [create_complaint, hn]
  · exact deleteOneById_sublist cid store

theorem complaint_helper_ok_of_required {d : MongoDoc} (h : requiredPresent d) :
    ∃ out, complaint_helper d = .ok out ∧ out.resolved = d.resolved.join := by
  obtain ⟨h1, h2, h3, h4, h5, h6, h7⟩ := h
  rcases Option.isSome_iff_exists.mp h1 with ⟨i, hi⟩
  rcases Option.isSome_iff_exists.mp h2 with ⟨ho, hho⟩
  rcases Option.isSome_iff_exists.mp h3 with ⟨r, hr⟩
  rcases Option.isSome_iff_exists.mp h4 with ⟨t, ht⟩
  rcases Option.isSome_iff_exists.mp h5 with ⟨de, hde⟩
  rcases Option.isSome_iff_exists.mp h6 with ⟨st, hst⟩
  rcases Option.isSome_iff_exists.mp h7 with ⟨su, hsu⟩
  refine ⟨⟨i, ho, r, t, de, st, su, d.resolved.join⟩, ?_, rfl⟩
  simp only [complaint_helper, getKey, hi, hho, hr, ht, hde, hst, hsu]
  rfl

theorem complaint_helper_err_of_missing {d : MongoDoc} (h : ¬ requiredPresent d) :
    ∃ k, complaint_helper d = .error (.keyError k) := by
  cases hi : d.id with
  | none => exact ⟨"id", by simp only [complaint_helper, getKey, hi]; rfl⟩
  | some i =>
  cases hho : d.hostel with
  | none => exact ⟨"hostel", by simp only [complaint_helper, getKey, hi, hho]; rfl⟩
  | some ho =>
  cases hr : d.room with
  | none => exact ⟨"room", by simp only [complaint_helper, getKey, hi, hho, hr]; rfl⟩
  | some r =>
  cases ht : d.type_ with
  | none => exact ⟨"type", by simp only [complaint_helper, getKey, hi, hho, hr, ht]; rfl⟩
  | some t =>
  cases hde : d.description with
  | none =>
    exact ⟨"description", by simp only [complaint_helper, getKey, hi, hho, hr, ht, hde]; rfl⟩
  | some de =>
  cases hst : d.status with
  | none =>
    exact ⟨"status", by simp only [complaint_helper, getKey, hi, hho, hr, ht, hde, hst]; rfl⟩
  | some st =>
  cases hsu : d.submitted with
  | none =>
    exact ⟨"submitted",
      by simp only [complaint_helper, getKey, hi, hho, hr, ht, hde, hst, hsu]; rfl⟩
  | some su =>
    exact absurd ⟨by simp [hi], by simp [hho], by simp [hr], by simp [ht],
      by simp [hde], by simp [hst], by simp [hsu]⟩ h

theorem mapExcept_ok_of_all {store : List MongoDoc}
    (h : ∀ d ∈ store, requiredPresent d) :
    ∃ outs, mapExcept complaint_helper store = .ok outs ∧
      outs.map ComplaintOut.resolved = store.map (fun d => d.resolved.join) := by
  induction store with
  | nil => exact ⟨[], rfl, rfl⟩
  | cons d ds ih =>
    rcases complaint_helper_ok_of_required (h d (List.mem_cons_self d ds)) with
      ⟨out, hout, hres⟩
    rcases ih (fun x hx => h x (List.mem_cons_of_mem d hx)) with ⟨outs, houts, hmap⟩
    refine ⟨out :: outs, ?_, ?_⟩
    · simp only [mapExcept, hout, houts]
      rfl
    · simp [hres, hmap]

theorem mapExcept_err_of_mem {store : List MongoDoc}
    (h : ∃ d ∈ store, ¬ requiredPresent d) :
    ∃ k, mapExcept complaint_helper store = .error (.keyError k) := by
  induction store with
  | nil => rcases h with ⟨d, hd, -⟩; exact absurd hd (List.not_mem_nil d)
  | cons d ds ih =>
    by_cases hreq : requiredPresent d
    · have h2 : ∃ x ∈ ds, ¬ requiredPresent x := by
        rcases h with ⟨x, hx, hxr⟩
        rcases List.mem_cons.mp hx with rfl | hx2
        · exact absurd hreq hxr
        · exact ⟨x, hx2, hxr⟩
      rcases complaint_helper_ok_of_required hreq with ⟨out, hout, -⟩
      rcases ih h2 with ⟨k, hk⟩
      refine ⟨k, ?_⟩
      simp only [mapExcept, hout, hk]
      rfl
    · rcases complaint_helper_err_of_missing hreq with ⟨k, hk⟩
      refine ⟨k, ?_⟩
      simp only [mapExcept, hk]
      rfl

/-- C10: a stored document whose `resolved` field is absent entirely is
returned by listAll and getById with resolved = null instead of failing
(`complaint_helper` reads it with `.get`); by contrast a stored document
missing any required field (id, hostel, room, type, description, status,
submitted) makes those reads fail with a 500 storage-style error — never a
partial record. -/
theorem c10_absent_resolved_null_but_missing_required_errors :
    (∀ d : MongoDoc, requiredPresent d → d.resolved = none →
       ∃ out, complaint_helper d = .ok out ∧ out.resolved = none) ∧
    (∀ store : List MongoDoc, (∀ d ∈ store, requiredPresent d) →
       ∃ outs, get_all_complaints store = .ok outs ∧
         outs.map ComplaintOut.resolved = store.map (fun d => d.resolved.join)) ∧
    (∀ (store : List MongoDoc) (cid : Int) (d : MongoDoc),
       findOneById store cid = some d → requiredPresent d →
       ∃ out, get_complaint store cid = .ok out ∧ out.resolved = d.resolved.join) ∧
    (∀ store : List MongoDoc, (∃ d ∈ store, ¬ requiredPresent d) →
       ∃ e, get_all_complaints store = .error e ∧ e.status = 500) ∧
    (∀ (store : List MongoDoc) (cid : Int) (d : MongoDoc),
       findOneById store cid = some d → ¬ requiredPresent d →
       ∃ e, get_complaint store cid = .error e ∧ e.status = 500) := by
  refine ⟨?_, ?_, ?_, ?_, ?_⟩
  · intro d hreq hres
    rcases complaint_helper_ok_of_required hreq with ⟨out, hout, hres2⟩
    exact ⟨out, hout, by rw [hres2, hres]; rfl⟩
  · intro store h
    rcases mapExcept_ok_of_all h with ⟨outs, houts, hmap⟩
    exact ⟨outs, by simp only [get_all_complaints, houts]; rfl, hmap⟩
  · intro store cid d hfind hreq
    rcases complaint_helper_ok_of_required hreq with ⟨out, hout, hres⟩
    refine ⟨out, ?_, hres⟩
    simp only [get_complaint, hfind, hout]
    rfl
  · intro store h
    rcases mapExcept_err_of_mem h with ⟨k, hk⟩
    exact ⟨⟨500, (PyExc.keyError k).message⟩,
      by simp only [get_all_complaints, hk]; rfl, rfl⟩
  · intro store cid d hfind hreq
    rcases complaint_helper_err_of_missing hreq with ⟨k, hk⟩
    refine ⟨⟨500, (PyExc.keyError k).message⟩, ?_, rfl⟩
    simp only [get_complaint, hfind, hk]
    rfl

/-- Witness for C10: a document with no `resolved` field is read back with
resolved = null, and a document missing its `room` field makes getById fail
with a 500. -/
theorem c10_witness :
    (∃ out, get_complaint [sampleAbsentResolved] 2 = .ok out ∧
       out.resolved = sampleAbsentResolved.resolved.join) ∧
    (∃ e, get_complaint [sampleMissingRoom] 3 = .error e ∧ e.status = 500) :=
  ⟨c10_absent_resolved_null_but_missing_required_errors.2.2.1
     [sampleAbsentResolved] 2 sampleAbsentResolved rfl (by decide),
   c10_absent_resolved_null_but_missing_required_errors.2.2.2.2
     [sampleMissingRoom] 3 sampleMissingRoom rfl (by decide)⟩

theorem filterResolvedExc_ok {store : List MongoDoc}
    (h : ∀ d ∈ store, d.status.isSome) :
    filterResolvedExc store =
      .ok (store.filter (fun d => decide (d.status = some "Resolved"))) := by
  induction store with
  | nil => rfl
  | cons d ds ih =>
    rcases Option.isSome_iff_exists.mp (h d (List.mem_cons_self d ds)) with ⟨st, hst⟩
    have ih2 := ih (fun x hx => h x (List.mem_cons_of_mem d hx))
    simp only [filterResolvedExc, hst, ih2, List.filter_cons]
    by_cases hres : st = "Resolved"
    · simp [hst, hres]
    · simp [hst, hres]

theorem get_dashboard_stats_ok {store : List MongoDoc}
    (h : ∀ d ∈ store, d.status.isSome) :
    get_dashboard_stats store =
      .ok ⟨(store.length : Int),
           (store.length : Int) -
             ((store.filter (fun d => decide (d.status = some "Resolved"))).length : Int),
           ((store.filter (fun d => decide (d.status = some "Resolved"))).length : Int),
           pyRound1
             (if (store.filter (fun d => decide (d.status = some "Resolved"))).isEmpty
              then 0
              else
                if sumDeltas (store.filter (fun d => decide (d.status = some "Resolved"))) > 0
                then
                  ((sumDeltas (store.filter
                      (fun d => decide (d.status = some "Resolved"))) : ℚ) /
                    ((store.filter
                       (fun d => decide (d.status = some "Resolved"))).length : ℚ)) /
                    3600000
                else 0)⟩ := by
  simp only [get_dashboard_stats, filterResolvedExc_ok h]
  rfl

theorem ratFloor_intCast (z : Int) : ratFloor (z : ℚ) = z := by
  unfold ratFloor
  simp only [Rat.num_intCast, Rat.den_intCast, Nat.cast_one]
  exact Int.ediv_one z

theorem roundHalfEven_intCast (z : Int) : roundHalfEven (z : ℚ) = z := by
  unfold roundHalfEven
  rw [ratFloor_intCast]
  norm_num

theorem pyRound1_intCast (z : Int) : pyRound1 (z : ℚ) = (z : ℚ) := by
  unfold pyRound1
  have h : (z : ℚ) * 10 = ((z * 10 : Int) : ℚ) := by push_cast; ring
  rw [h, roundHalfEven_intCast]
  push_cast
  field_simp

theorem pyRound1_zero : pyRound1 0 = 0 := by
  have := pyRound1_intCast 0
  simpa using this

theorem roundHalfEven_nonneg {x : ℚ} (hx : 0 ≤ x) : 0 ≤ roundHalfEven x := by
  unfold roundHalfEven
  have hf : (0 : Int) ≤ ratFloor x := by
    unfold ratFloor
    exact Int.ediv_nonneg (Rat.num_nonneg.mpr hx) (Int.ofNat_nonneg _)
  split_ifs <;> omega

theorem pyRound1_nonneg {x : ℚ} (hx : 0 ≤ x) : 0 ≤ pyRound1 x := by
  unfold pyRound1
  have h10 : (0 : ℚ) ≤ x * 10 := by positivity
  have hr := roundHalfEven_nonneg h10
  have hcast : (0 : ℚ) ≤ (roundHalfEven (x * 10) : ℚ) := by exact_mod_cast hr
  positivity

/-- C7: for every complaint set (each stored document carrying a status),
computeStats returns total = the number of all complaints, resolved = the
number with status "Resolved", and open = total - resolved; on the empty
store it returns exactly total 0, open 0, resolved 0, avgResolution 0.0. -/
theorem c7_stats_counts :
    (∀ store : List MongoDoc, (∀ d ∈ store, d.status.isSome) →
       ∃ s, get_dashboard_stats store = .ok s ∧
         s.total = store.length ∧
         s.resolved = store.countP (fun d => decide (d.status = some "Resolved")) ∧
         s.open_ = s.total - s.resolved) ∧
    get_dashboard_stats [] = .ok ⟨0, 0, 0, 0⟩ := by
  constructor
  · intro store h
    refine ⟨_, get_dashboard_stats_ok h, rfl, ?_, rfl⟩
    show ((store.filter (fun d => decide (d.status = some "Resolved"))).length : Int) = _
    rw [List.countP_eq_length_filter]
  · have h0 := @get_dashboard_stats_ok [] (by simp)
    simpa [pyRound1_zero] using h0

/-- Witness for C7 on a concrete one-element store containing a resolved
complaint. -/
theorem c7_witness :
    ∃ s, get_dashboard_stats [sampleBackwards] = .ok s ∧
      s.total = [sampleBackwards].length ∧
      s.resolved = [sampleBackwards].countP
        (fun d => decide (d.status = some "Resolved")) ∧
      s.open_ = s.total - s.resolved :=
  c7_stats_counts.1 [sampleBackwards] (by decide)

theorem stats_backwards : get_dashboard_stats [sampleBackwards] = .ok ⟨1, 0, 1, 0⟩ := by
  have h := @get_dashboard_stats_ok [sampleBackwards] (by decide)
  have hfilter : [sampleBackwards].filter
      (fun d => decide (d.status = some "Resolved")) = [sampleBackwards] := by
    simp [sampleBackwards]
  rw [hfilter] at h
  have hsum : sumDeltas [sampleBackwards] = -36000000 := by
    simp [sumDeltas, sampleBackwards, truthyInt]
  rw [hsum] at h
  norm_num at h
  simpa [pyRound1_zero] using h

/-- C9: computeStats never returns a negative avgResolution: whenever the
accumulated (resolved - submitted) sum over resolved complaints is zero or
negative, avgResolution is exactly 0.0. -/
theorem c9_avg_resolution_never_negative :
    ∀ store : List MongoDoc, (∀ d ∈ store, d.status.isSome) →
    ∀ s, get_dashboard_stats store = .ok s →
    0 ≤ s.avgResolution ∧
    (sumDeltas (store.filter (fun d => decide (d.status = some "Resolved"))) ≤ 0 →
      s.avgResolution = 0) := by
  intro store h s hs
  rw [get_dashboard_stats_ok h] at hs
  injection hs with hs
  subst hs
  constructor
  · apply pyRound1_nonneg
    split_ifs with h1 h2
    · exact le_refl 0
    · have hnum : (0 : ℚ) ≤ (sumDeltas (store.filter
          (fun d => decide (d.status = some "Resolved"))) : ℚ) := by
        exact_mod_cast h2.le
      have hlen : (0 : ℚ) ≤ ((store.filter
          (fun d => decide (d.status = some "Resolved"))).length : ℚ) := by
        positivity
      exact div_nonneg (div_nonneg hnum hlen) (by norm_num)
    · exact le_refl 0
  · intro hneg
    dsimp only
    split_ifs with h1 h2
    · exact pyRound1_zero
    · omega
    · exact pyRound1_zero

/-- Witness for C9: the average is non-negative on a concrete store whose only
resolved complaint has resolved earlier than submitted. -/
theorem c9_witness :
    0 ≤ (⟨1, 0, 1, 0⟩ : StatsResponse).avgResolution :=
  (c9_avg_resolution_never_negative [sampleBackwards] (by decide)
    ⟨1, 0, 1, 0⟩ stats_backwards).1

theorem sumDeltas_eq_filter_sum (l : List MongoDoc) :
    sumDeltas l = ((l.filter (fun d => truthyInt d.resolved.join &&
        truthyInt d.submitted)).map
      (fun d => d.resolved.join.getD 0 - d.submitted.getD 0)).sum := by
  induction l with
  | nil => rfl
  | cons d ds ih =>
    simp only [sumDeltas, ih, List.filter_cons]
    by_cases hc : truthyInt d.resolved.join = true ∧ truthyInt d.submitted = true
    · have hb : (truthyInt d.resolved.join && truthyInt d.submitted) = true := by
        rw [Bool.and_eq_true]
        exact hc
      rw [if_pos hc, if_pos hb, List.map_cons, List.sum_cons]
    · have hb : ¬ ((truthyInt d.resolved.join && truthyInt d.submitted) = true) := by
        rw [Bool.and_eq_true]
        exact hc
      rw [if_neg hc, if_neg hb, zero_add]

theorem claim_filter_eq (store : List MongoDoc) :
    (store.filter (fun d => decide (d.status = some "Resolved"))).filter
      (fun d => truthyInt d.resolved.join && truthyInt d.submitted) =
    store.filter (fun d => decide (d.status = some "Resolved") &&
      truthyInt d.resolved.join && truthyInt d.submitted) := by
  rw [List.filter_filter]
  apply List.filter_congr
  intro d _
  cases hp : decide (d.status = some "Resolved") <;>
    cases h1 : truthyInt d.resolved.join <;>
    cases h2 : truthyInt d.submitted <;> simp [hp, h1, h2]

theorem code_avg_eq_amended (store : List MongoDoc) :
    pyRound1
      (if (store.filter (fun d => decide (d.status = some "Resolved"))).isEmpty
       then 0
       else
         if sumDeltas (store.filter (fun d => decide (d.status = some "Resolved"))) > 0
         then
           ((sumDeltas (store.filter
               (fun d => decide (d.status = some "Resolved"))) : ℚ) /
             ((store.filter
                (fun d => decide (d.status = some "Resolved"))).length : ℚ)) /
             3600000
         else 0) = claimAvgResolutionAmended store := by
  have hnum : ((store.filter (fun d => decide (d.status = some "Resolved") &&
      truthyInt d.resolved.join && truthyInt d.submitted)).map
      (fun d => d.resolved.join.getD 0 - d.submitted.getD 0)).sum =
      sumDeltas (store.filter (fun d => decide (d.status = some "Resolved"))) := by
    rw [sumDeltas_eq_filter_sum, claim_filter_eq]
  unfold claimAvgResolutionAmended
  simp only [hnum]
  by_cases hemp : (store.filter
      (fun d => decide (d.status = some "Resolved"))).isEmpty = true
  · have hlen : (store.filter
        (fun d => decide (d.status = some "Resolved"))).length = 0 := by
      rw [List.isEmpty_iff] at hemp
      simp [hemp]
    simp [hemp, hlen, pyRound1_zero]
  · have hlen : (store.filter
        (fun d => decide (d.status = some "Resolved"))).length ≠ 0 := by
      rw [List.isEmpty_iff] at hemp
      simpa [List.length_eq_zero] using hemp
    by_cases hpos : sumDeltas (store.filter
        (fun d => decide (d.status = some "Resolved"))) > 0
    · have hng : ¬ (sumDeltas (store.filter
          (fun d => decide (d.status = some "Resolved"))) ≤ 0) := by omega
      simp [hemp, hpos, hlen, hng]
    · have hle : sumDeltas (store.filter
          (fun d => decide (d.status = some "Resolved"))) ≤ 0 := by omega
      simp [hemp, hpos, hle, pyRound1_zero]

theorem claim_backwards : claimAvgResolution [sampleBackwards] = -10 := by
  have h1 : [sampleBackwards].filter
      (fun d => decide (d.status = some "Resolved")) = [sampleBackwards] := by
    simp [sampleBackwards]
  have h2 : [sampleBackwards].filter
      (fun d => decide (d.status = some "Resolved") &&
        truthyInt d.resolved.join && truthyInt d.submitted) = [sampleBackwards] := by
    simp [sampleBackwards, truthyInt]
  unfold claimAvgResolution
  simp only [h1, h2]
  norm_num [sampleBackwards]
  have h3 : (-10 : ℚ) = ((-10 : Int) : ℚ) := by norm_num
  rw [h3, pyRound1_intCast]

/-- Counterexample to C5 as stated: on a store whose single "Resolved"
complaint has resolved 36000000 ms earlier than submitted, the claim's formula
(sum of deltas divided by the resolved count, in hours, rounded) yields -10.0,
but the code returns avgResolution 0.0 because it only uses the quotient when
the accumulated time is strictly positive. -/
theorem c5_counterexample_negative_sum :
    get_dashboard_stats [sampleBackwards] = .ok ⟨1, 0, 1, 0⟩ ∧
    claimAvgResolution [sampleBackwards] = -10 ∧
    (⟨1, 0, 1, 0⟩ : StatsResponse).avgResolution ≠
      claimAvgResolution [sampleBackwards] := by
  refine ⟨stats_backwards, claim_backwards, ?_⟩
  rw [claim_backwards]
  norm_num

/-- C5 (amended): avgResolution equals the claim's formula — sum of
(resolved - submitted) over "Resolved" complaints with truthy resolved and
submitted, divided by the count of all "Resolved" complaints, divided by
3600000, rounded to one decimal — except that the result is 0.0 whenever the
accumulated time is zero *or negative*, not only when it is zero, and when
there are no resolved complaints. -/
theorem c5_avg_matches_amended_formula :
    ∀ store : List MongoDoc, (∀ d ∈ store, d.status.isSome) →
    ∃ s, get_dashboard_stats store = .ok s ∧
      s.avgResolution = claimAvgResolutionAmended store := by
  intro store h
  exact ⟨_, get_dashboard_stats_ok h, code_avg_eq_amended store⟩

/-- Witness for C5 on a concrete store with one resolved complaint. -/
theorem c5_witness :
    ∃ s, get_dashboard_stats [sampleResolvedGood] = .ok s ∧
      s.avgResolution = claimAvgResolutionAmended [sampleResolvedGood] :=
  c5_avg_matches_amended_formula [sampleResolvedGood] (by decide)
